import Mathlib

/-!
Shallow embedding of `pkg_swift_llvm.py`, the packaging script that probes a
dummy CMake project for its link line, classifies the link-line tokens, and
assembles consolidated static/shared libraries plus an exported bundle.
-/

/-- Dependency groups, mirroring the `DEPS` dict (insertion order preserved). -/
def DEPS : List (String × List String) :=
  [("llvm", ["LLVMSupport"]), ("swift", ["swiftFrontendTool"])]

/-- `DEPLIST = [x for d in DEPS.values() for x in d]`. -/
def DEPLIST : List String := (DEPS.map Prod.snd).flatten

/-- `EXPORTED_LIB = "swiftAndLlvmSupport"`. -/
def EXPORTED_LIB : String := "swiftAndLlvmSupport"

/-- Model of Python `str.endswith`, computed on the underlying character lists. -/
def strEndsWith (s suf : String) : Bool :=
  List.isPrefixOf suf.data.reverse s.data.reverse

/-- Model of Python `str.startswith`, computed on the underlying character lists. -/
def strStartsWith (s p : String) : Bool :=
  List.isPrefixOf p.data s.data

/-- Splits a character list at every occurrence of `c` (model of `str.split(c)`). -/
def splitChar (c : Char) : List Char → List Char → List (List Char)
  | [], acc => [acc.reverse]
  | x :: xs, acc => if x = c then acc.reverse :: splitChar c xs [] else splitChar c xs (x :: acc)

/-- Index of the last occurrence of `'.'` (model of `str.rfind('.')` as an `Option`). -/
def lastDotIdx : List Char → Option Nat
  | [] => none
  | c :: cs =>
    match lastDotIdx cs with
    | some i => some (i + 1)
    | none => if c = '.' then some 0 else none

/-- Model of `pathlib.PurePath(s).stem` for POSIX paths without trailing slashes:
the final path component with its last extension removed; a dot at position 0 or as
the final character of the name does not start an extension (CPython: `stem` returns
`name[:i]` when `0 < i < len(name) - 1` for `i = name.rfind('.')`, else `name`). -/
def pyStem (s : String) : String :=
  let name := (splitChar '/' s.data []).getLastD []
  match lastDotIdx name with
  | some i => if 0 < i ∧ i + 1 < name.length then String.mk (name.take i) else String.mk name
  | none => String.mk name

/-- The classified link-line categories: `Libs = namedtuple("Libs", ("archive", "static", "shared"))`. -/
structure Libs where
  archive : List String
  static : List String
  shared : List String
deriving DecidableEq, Repr

/-- Model of `str((configured / l).resolve())` under the assumptions that `configured`
is an absolute normalized path, `l` contains no `.`/`..` segments, and no symlinks are
involved: an absolute `l` is returned as is, a relative one is joined onto `configured`. -/
def resolveTok (configured l : String) : String :=
  if strStartsWith l "/" then l else configured ++ "/" ++ l

/-- The short-form link flag emitted for a shared-library file token
(`l = pathlib.Path(l).stem; f"-l{l[3:]}"`): the stem with its first three
characters dropped, behind `-l`. -/
def sharedImage (l : String) : String :=
  "-l" ++ String.mk ((pyStem l).data.drop 3)

deriving instance DecidableEq for Except

/-- The token loop of `get_libs` (src lines 167-177): builds the `static` and `shared`
lists in input order, or raises `ValueError` on the first unrecognized token. -/
def classify (configured : String) : List String → Except String (List String × List String)
  | [] => Except.ok ([], [])
  | l :: ls =>
    if strEndsWith l ".a" then
      (classify configured ls).map (fun p => (resolveTok configured l :: p.1, p.2))
    else if strEndsWith l ".so" || strEndsWith l ".tbd" || strEndsWith l ".dylib" then
      (classify configured ls).map (fun p => (p.1, sharedImage l :: p.2))
    else if strStartsWith l "-l" then
      (classify configured ls).map (fun p => (p.1, l :: p.2))
    else
      Except.error ("cannot understand link.txt: " ++ l)

/-- `get_libs` (src lines 162-181) on the token list that follows `dummy` in
`link.txt`: classify every token, then move the first `len(DEPLIST)` static
entries into `archive` (`ret.archive[:] = ret.static[:len(DEPLIST)];
ret.static[:len(DEPLIST)] = []`). A raised `ValueError` is an `Except.error`. -/
def get_libs (configured : String) (tokens : List String) : Except String Libs :=
  (classify configured tokens).map fun p =>
    { archive := p.1.take DEPLIST.length
      static := p.1.drop DEPLIST.length
      shared := p.2 }

/-- `libs = libs[libs.index('dummy')+1:]`: the sub-sequence of `link.txt` tokens
after the probe target's name. -/
def linkTokensAfterDummy (ws : List String) : List String :=
  ((ws.dropWhile (fun s => s != "dummy")).drop 1)

/-- A token the classifier files under `static` (checked first, so this wins ties). -/
def isStaticTok (t : String) : Bool := strEndsWith t ".a"

/-- A token naming a shared-library file (only reached when the `.a` test failed). -/
def isSharedFileTok (t : String) : Bool :=
  strEndsWith t ".so" || strEndsWith t ".tbd" || strEndsWith t ".dylib"

/-- A token the classifier files under `shared`, either as a normalized file name
or as a verbatim `-l` flag. -/
def isSharedTok (t : String) : Bool :=
  !isStaticTok t && (isSharedFileTok t || strStartsWith t "-l")

/-- A token the classifier accepts at all. -/
def recognizedTok (t : String) : Bool :=
  isStaticTok t || isSharedFileTok t || strStartsWith t "-l"

/-- What a `shared`-classified token becomes in the output. -/
def sharedOut (t : String) : String :=
  if isSharedFileTok t then sharedImage t else t

/-- On a fully recognized token list, the classifier loop succeeds and returns the
static tokens (resolved) and the shared tokens (normalized), each in input order. -/
theorem classify_ok (configured : String) (ts : List String)
    (h : ∀ t ∈ ts, recognizedTok t = true) :
    classify configured ts =
      Except.ok ((ts.filter isStaticTok).map (resolveTok configured),
                 (ts.filter isSharedTok).map sharedOut) := by
  induction ts with
  | nil => simp [classify]
  | cons l ls ih =>
    have hl : recognizedTok l = true := h l (List.mem_cons_self _ _)
    have hls : ∀ t ∈ ls, recognizedTok t = true := fun t ht => h t (List.mem_cons_of_mem _ ht)
    cases hA : strEndsWith l ".a" with
    | true =>
      simp [classify, hA, ih hls, Except.map, List.filter_cons, isStaticTok, isSharedTok]
    | false =>
      cases hF : isSharedFileTok l with
      | true =>
        have hF' := hF
        simp only [isSharedFileTok] at hF'
        simp [classify, hA, hF', ih hls, Except.map, List.filter_cons,
              isStaticTok, isSharedTok, isSharedFileTok, sharedOut, hF]
      | false =>
        have hF' := hF
        simp only [isSharedFileTok] at hF'
        have hL : strStartsWith l "-l" = true := by
          simp [recognizedTok, isStaticTok, isSharedFileTok, hA, hF'] at hl
          simpa using hl
        simp [classify, hA, hF', hL, ih hls, Except.map, List.filter_cons,
              isStaticTok, isSharedTok, isSharedFileTok, sharedOut, hF]

/-- If every token before `t` is recognized and `t` is not, the classifier loop
raises exactly at `t`, with the message naming `t`. -/
theorem classify_err (configured : String) (ps : List String) (t : String) (qs : List String)
    (hp : ∀ u ∈ ps, recognizedTok u = true) (ht : recognizedTok t = false) :
    classify configured (ps ++ t :: qs) =
      Except.error ("cannot understand link.txt: " ++ t) := by
  induction ps with
  | nil =>
    simp only [recognizedTok, isStaticTok, isSharedFileTok, Bool.or_eq_false_iff] at ht
    obtain ⟨⟨h1, ⟨hso, htbd⟩, hdy⟩, h3⟩ := ht
    simp [classify, h1, hso, htbd, hdy, h3]
  | cons u ps ih =>
    have hu : recognizedTok u = true := hp u (List.mem_cons_self _ _)
    have hps : ∀ v ∈ ps, recognizedTok v = true := fun v hv => hp v (List.mem_cons_of_mem _ hv)
    cases hA : strEndsWith u ".a" with
    | true => simp [classify, hA, ih hps, Except.map]
    | false =>
      cases hF : isSharedFileTok u with
      | true =>
        have hF' := hF
        simp only [isSharedFileTok] at hF'
        simp [classify, hA, hF', ih hps, Except.map]
      | false =>
        have hF' := hF
        simp only [isSharedFileTok] at hF'
        have hL : strStartsWith u "-l" = true := by
          simp [recognizedTok, isStaticTok, isSharedFileTok, hA, hF'] at hu
          simpa using hu
        simp [classify, hA, hF', hL, ih hps, Except.map]

/-- For recognized tokens, the `shared` test is exactly the complement of the
`static` test. -/
theorem isSharedTok_eq_not_static (t : String) (h : recognizedTok t = true) :
    isSharedTok t = !isStaticTok t := by
  cases hA : isStaticTok t with
  | true => simp [isSharedTok, hA]
  | false =>
    simp only [recognizedTok, hA, Bool.false_or] at h
    simp [isSharedTok, hA, h]

/-- C4: a link-command token that neither ends in a recognized library extension
(`.a`, `.so`, `.tbd`, `.dylib`) nor begins with the recognized flag `-l` makes
`get_libs` fail with `ValueError("cannot understand link.txt: " + token)`, naming
that exact token; no `Libs` value is returned. -/
theorem get_libs_unrecognized_fails (configured : String) (ps : List String) (t : String)
    (qs : List String) (hp : ∀ u ∈ ps, recognizedTok u = true)
    (ht : recognizedTok t = false) :
    get_libs configured (ps ++ t :: qs) =
      Except.error ("cannot understand link.txt: " ++ t) := by
  simp [get_libs, classify_err configured ps t qs hp ht, Except.map]

/-- Witness for C4 at a concrete input containing the unrecognized token `weird.txt`. -/
theorem get_libs_unrecognized_fails_witness :
    (∀ u ∈ ["liba.a", "-lfoo"], recognizedTok u = true) ∧
    recognizedTok "weird.txt" = false ∧
    get_libs "/c" (["liba.a", "-lfoo"] ++ "weird.txt" :: ["libb.a"]) =
      Except.error "cannot understand link.txt: weird.txt" :=
  ⟨by decide, by decide,
   get_libs_unrecognized_fails "/c" ["liba.a", "-lfoo"] "weird.txt" ["libb.a"]
     (by decide) (by decide)⟩

/-- C5: on an input of recognized tokens only, classification succeeds, every token
lands in exactly one category (the categories' sizes sum to the input length), the
`archive`/`static` entries are exactly the resolved static tokens in order, the
`shared` entries are exactly the normalized shared tokens in order (so un-normalizing
each entry by its source token recovers it), and the static and shared source tokens
together are a permutation of the input. -/
theorem get_libs_partition (configured : String) (ts : List String)
    (h : ∀ t ∈ ts, recognizedTok t = true) :
    ∃ ret : Libs, get_libs configured ts = Except.ok ret ∧
      ret.archive ++ ret.static = (ts.filter isStaticTok).map (resolveTok configured) ∧
      ret.shared = (ts.filter isSharedTok).map sharedOut ∧
      ret.archive.length + ret.static.length + ret.shared.length = ts.length ∧
      (ts.filter isStaticTok ++ ts.filter isSharedTok).Perm ts := by
  have hperm : (ts.filter isStaticTok ++ ts.filter isSharedTok).Perm ts := by
    have hcongr : ts.filter isSharedTok = ts.filter (fun t => !isStaticTok t) :=
      List.filter_congr (fun t ht => isSharedTok_eq_not_static t (h t ht))
    rw [hcongr]
    exact List.filter_append_perm _ ts
  refine ⟨⟨((ts.filter isStaticTok).map (resolveTok configured)).take DEPLIST.length,
           ((ts.filter isStaticTok).map (resolveTok configured)).drop DEPLIST.length,
           (ts.filter isSharedTok).map sharedOut⟩, ?_, ?_, rfl, ?_, hperm⟩
  · simp [get_libs, classify_ok configured ts h, Except.map]
  · exact List.take_append_drop _ _
  · have hlen := hperm.length_eq
    simp only [List.length_append] at hlen
    simp [List.length_take, List.length_drop, List.length_map]
    omega

/-- Witness for C5 at a concrete recognized-only link line. -/
theorem get_libs_partition_witness :
    (∀ t ∈ ["liba.a", "libb.a", "libc.a", "dir/libfoo.so", "-lbar"],
        recognizedTok t = true) ∧
    (∃ ret : Libs,
      get_libs "/c" ["liba.a", "libb.a", "libc.a", "dir/libfoo.so", "-lbar"] =
        Except.ok ret ∧
      ret.archive ++ ret.static =
        ((["liba.a", "libb.a", "libc.a", "dir/libfoo.so", "-lbar"].filter
            isStaticTok).map (resolveTok "/c")) ∧
      ret.shared =
        (["liba.a", "libb.a", "libc.a", "dir/libfoo.so", "-lbar"].filter
            isSharedTok).map sharedOut ∧
      ret.archive.length + ret.static.length + ret.shared.length =
        ["liba.a", "libb.a", "libc.a", "dir/libfoo.so", "-lbar"].length ∧
      ((["liba.a", "libb.a", "libc.a", "dir/libfoo.so", "-lbar"].filter isStaticTok) ++
        (["liba.a", "libb.a", "libc.a", "dir/libfoo.so", "-lbar"].filter
            isSharedTok)).Perm
        ["liba.a", "libb.a", "libc.a", "dir/libfoo.so", "-lbar"]) :=
  ⟨by decide,
   get_libs_partition "/c" ["liba.a", "libb.a", "libc.a", "dir/libfoo.so", "-lbar"]
     (by decide)⟩

/-- C6: on recognized tokens, classification is order-preserving within each category
(each category is the ordered image of an ordered filter of the input), and exactly
the first `DEPLIST.length` static-archive tokens — `DEPLIST` lists the declared
direct dependency libraries — are moved into `archive` instead of `static`. -/
theorem get_libs_archive_first_k (configured : String) (ts : List String)
    (h : ∀ t ∈ ts, recognizedTok t = true) :
    ∃ ret : Libs, get_libs configured ts = Except.ok ret ∧
      ret.archive = ((ts.filter isStaticTok).map (resolveTok configured)).take DEPLIST.length ∧
      ret.static = ((ts.filter isStaticTok).map (resolveTok configured)).drop DEPLIST.length ∧
      ret.shared = (ts.filter isSharedTok).map sharedOut := by
  refine ⟨⟨((ts.filter isStaticTok).map (resolveTok configured)).take DEPLIST.length,
          ((ts.filter isStaticTok).map (resolveTok configured)).drop DEPLIST.length,
          (ts.filter isSharedTok).map sharedOut⟩, ?_, rfl, rfl, rfl⟩
  simp [get_libs, classify_ok configured ts h, Except.map]

/-- Witness for C6: with three static tokens and `DEPLIST.length = 2`, the first two
resolved static archives land in `archive` and the third in `static`. -/
theorem get_libs_archive_first_k_witness :
    (∀ t ∈ ["libLLVMSupport.a", "libswiftFrontendTool.a", "libExtra.a", "-lm"],
        recognizedTok t = true) ∧
    (∃ ret : Libs,
      get_libs "/c" ["libLLVMSupport.a", "libswiftFrontendTool.a", "libExtra.a", "-lm"] =
        Except.ok ret ∧
      ret.archive =
        (((["libLLVMSupport.a", "libswiftFrontendTool.a", "libExtra.a", "-lm"].filter
            isStaticTok).map (resolveTok "/c")).take DEPLIST.length) ∧
      ret.static =
        (((["libLLVMSupport.a", "libswiftFrontendTool.a", "libExtra.a", "-lm"].filter
            isStaticTok).map (resolveTok "/c")).drop DEPLIST.length) ∧
      ret.shared =
        (["libLLVMSupport.a", "libswiftFrontendTool.a", "libExtra.a", "-lm"].filter
            isSharedTok).map sharedOut) :=
  ⟨by decide,
   get_libs_archive_first_k "/c"
     ["libLLVMSupport.a", "libswiftFrontendTool.a", "libExtra.a", "-lm"] (by decide)⟩

/-- C10: for a token ending in a shared-object/dynamic-library/stub extension, the
classifier takes the stem and unconditionally drops its first three characters to
form the `-l` flag; even when the stem does not start with `lib`, classification
succeeds and emits the truncated flag instead of failing. -/
theorem get_libs_sharedfile_truncates (configured t : String)
    (hA : strEndsWith t ".a" = false)
    (hS : (strEndsWith t ".so" || strEndsWith t ".tbd" || strEndsWith t ".dylib") = true)
    (_hLib : strStartsWith (pyStem t) "lib" = false) :
    get_libs configured [t] =
      Except.ok ⟨[], [], ["-l" ++ String.mk ((pyStem t).data.drop 3)]⟩ := by
  simp [get_libs, classify, hA, hS, Except.map, sharedImage]

/-- Witness for C10: `xyzfoo.so` does not start with `lib`, yet classification
succeeds and emits `-lfoo`, naming a truncated library. -/
theorem get_libs_sharedfile_truncates_witness :
    strEndsWith "xyzfoo.so" ".a" = false ∧
    (strEndsWith "xyzfoo.so" ".so" || strEndsWith "xyzfoo.so" ".tbd" ||
      strEndsWith "xyzfoo.so" ".dylib") = true ∧
    strStartsWith (pyStem "xyzfoo.so") "lib" = false ∧
    get_libs "/c" ["xyzfoo.so"] = Except.ok ⟨[], [], ["-lfoo"]⟩ := by
  refine ⟨by decide, by decide, by decide, ?_⟩
  have h := get_libs_sharedfile_truncates "/c" "xyzfoo.so" (by decide) (by decide) (by decide)
  have he : "-l" ++ String.mk ((pyStem "xyzfoo.so").data.drop 3) = "-lfoo" := by decide
  rw [he] at h
  exact h

/-- C3 counterexample: a `-L` token is not appended to any flags category — `Libs`
has only the three fields `archive`, `static`, `shared` — and instead makes
classification fail with `ValueError` naming the token. -/
theorem get_libs_dashL_fails :
    get_libs "/c" ["-L/usr/lib"] =
      Except.error "cannot understand link.txt: -L/usr/lib" := by decide

/-- C3 amended: classification returns the three-category `Libs`
(`archive`, `static`, `shared`); a token with no recognized library extension that
begins with `-l` is appended verbatim to `shared`, while such a token beginning with
`-L` (or any other linker-passthrough form) is unrecognized and makes classification
fail with an error naming that exact token. -/
theorem get_libs_flag_handling (configured t u : String)
    (htA : strEndsWith t ".a" = false)
    (htF : (strEndsWith t ".so" || strEndsWith t ".tbd" || strEndsWith t ".dylib") = false)
    (htL : strStartsWith t "-l" = true)
    (huR : recognizedTok u = false) :
    get_libs configured [t] = Except.ok ⟨[], [], [t]⟩ ∧
    get_libs configured [u] = Except.error ("cannot understand link.txt: " ++ u) := by
  constructor
  · simp [get_libs, classify, htA, htF, htL, Except.map]
  · have he := classify_err configured [] u [] (by simp) huR
    simp only [List.nil_append] at he
    simp [get_libs, he, Except.map]

/-- Witness for the amended C3 at `-lfoo` and `-L/usr/lib`. -/
theorem get_libs_flag_handling_witness :
    (strEndsWith "-lfoo" ".a" = false ∧
      (strEndsWith "-lfoo" ".so" || strEndsWith "-lfoo" ".tbd" ||
        strEndsWith "-lfoo" ".dylib") = false ∧
      strStartsWith "-lfoo" "-l" = true ∧
      recognizedTok "-L/usr/lib" = false) ∧
    get_libs "/c" ["-lfoo"] = Except.ok ⟨[], [], ["-lfoo"]⟩ ∧
    get_libs "/c" ["-L/usr/lib"] =
      Except.error ("cannot understand link.txt: " ++ "-L/usr/lib") :=
  ⟨⟨by decide, by decide, by decide, by decide⟩,
   get_libs_flag_handling "/c" "-lfoo" "-L/usr/lib"
     (by decide) (by decide) (by decide) (by decide)⟩

/-- The linker command built by `create_shared_lib` (src lines 208-236): compiler,
`-shared`, the platform's whole-archive/all-load flag, the output flag, the
`archive` list, then (Linux) the closing whole-archive bracket or (macOS) `-lc++`,
then the `static` list and the `shared` flags. -/
def create_shared_lib_cmd (isLinux : Bool) (cc tgtFile : String) (libs : Libs) : List String :=
  [cc, "-shared"]
  ++ (if isLinux then ["-Wl,--whole-archive"] else ["-Wl,-all_load"])
  ++ ["-o" ++ tgtFile]
  ++ libs.archive
  ++ (if isLinux then ["-Wl,--no-whole-archive"] else ["-lc++"])
  ++ libs.static
  ++ libs.shared

/-- The region of a Linux link command between the first `-Wl,--whole-archive`
and the next `-Wl,--no-whole-archive`: the inputs given whole-archive semantics. -/
def wholeArchiveBracket (cmd : List String) : List String :=
  ((cmd.dropWhile (fun s => s != "-Wl,--whole-archive")).drop 1).takeWhile
    (fun s => s != "-Wl,--no-whole-archive")

/-- C1 counterexample: on Linux, with `archive = ["/a/libA.a"]` and
`static = ["/s/libS.a"]`, the static-category archive `/s/libS.a` is not inside the
whole-archive bracket of the produced link command, so whole-archive inclusion is
not applied to all static-archive inputs. -/
theorem create_shared_lib_cmd_static_outside_bracket :
    ¬ (∀ l ∈ (Libs.mk ["/a/libA.a"] ["/s/libS.a"] []).archive ++
          (Libs.mk ["/a/libA.a"] ["/s/libS.a"] []).static,
        l ∈ wholeArchiveBracket
          (create_shared_lib_cmd true "clang" "/out/libW.so"
            (Libs.mk ["/a/libA.a"] ["/s/libS.a"] []))) := by decide

/-- Helper: `takeWhile` keeps a block on which the test holds and stops at
the first element refuting it. -/
theorem takeWhile_append_stop {α : Type} (p : α → Bool) (xs : List α) (y : α)
    (ys : List α) (h1 : ∀ x ∈ xs, p x = true) (h2 : p y = false) :
    (xs ++ y :: ys).takeWhile p = xs := by
  induction xs with
  | nil => simp [List.takeWhile_cons, h2]
  | cons a xs ih =>
    have ha : p a = true := h1 a (List.mem_cons_self _ _)
    simp [List.takeWhile_cons, ha,
          ih (fun x hx => h1 x (List.mem_cons_of_mem _ hx))]

/-- C1 amended: on Linux the whole-archive bracket encloses exactly the output flag
and the `archive` category — the `static` category and the `shared` flags follow
the closing `-Wl,--no-whole-archive` and are linked with ordinary selective
semantics — while on macOS the global `-Wl,-all_load` flag is used and the C++
runtime is linked explicitly. -/
theorem create_shared_lib_cmd_bracket (cc tgtFile : String) (libs : Libs)
    (hcc : cc ≠ "-Wl,--whole-archive")
    (ho : "-o" ++ tgtFile ≠ "-Wl,--no-whole-archive")
    (har : "-Wl,--no-whole-archive" ∉ libs.archive) :
    wholeArchiveBracket (create_shared_lib_cmd true cc tgtFile libs) =
      ("-o" ++ tgtFile) :: libs.archive ∧
    create_shared_lib_cmd true cc tgtFile libs =
      [cc, "-shared", "-Wl,--whole-archive", "-o" ++ tgtFile] ++ libs.archive ++
        ["-Wl,--no-whole-archive"] ++ libs.static ++ libs.shared ∧
    create_shared_lib_cmd false cc tgtFile libs =
      [cc, "-shared", "-Wl,-all_load", "-o" ++ tgtFile] ++ libs.archive ++
        ["-lc++"] ++ libs.static ++ libs.shared := by
  refine ⟨?_, by simp [create_shared_lib_cmd], by simp [create_shared_lib_cmd]⟩
  have hcc' : (cc != "-Wl,--whole-archive") = true := by
    simpa using hcc
  have hstop :
      (("-o" ++ tgtFile) :: (libs.archive ++ "-Wl,--no-whole-archive" ::
          (libs.static ++ libs.shared))).takeWhile
        (fun s => s != "-Wl,--no-whole-archive") =
      ("-o" ++ tgtFile) :: libs.archive := by
    have := takeWhile_append_stop (fun s => s != "-Wl,--no-whole-archive")
      (("-o" ++ tgtFile) :: libs.archive) "-Wl,--no-whole-archive"
      (libs.static ++ libs.shared)
      (by
        intro x hx
        rcases List.mem_cons.1 hx with h | h
        · subst h; simpa using ho
        · simp only [bne_iff_ne, ne_eq]
          intro heq
          exact har (heq ▸ h))
      (by simp)
    simpa using this
  simp only [create_shared_lib_cmd, if_pos rfl, wholeArchiveBracket]
  simp only [List.cons_append, List.nil_append, List.dropWhile_cons, hcc']
  norm_num
  simpa using hstop

/-- Witness for the amended C1 at a concrete classified set. -/
theorem create_shared_lib_cmd_bracket_witness :
    ("clang" ≠ "-Wl,--whole-archive" ∧
      "-o" ++ "/out/libW.so" ≠ "-Wl,--no-whole-archive" ∧
      "-Wl,--no-whole-archive" ∉ (Libs.mk ["/a/libA.a"] ["/s/libS.a"] ["-lz"]).archive) ∧
    wholeArchiveBracket
        (create_shared_lib_cmd true "clang" "/out/libW.so"
          (Libs.mk ["/a/libA.a"] ["/s/libS.a"] ["-lz"])) =
      ("-o" ++ "/out/libW.so") :: (Libs.mk ["/a/libA.a"] ["/s/libS.a"] ["-lz"]).archive ∧
    create_shared_lib_cmd true "clang" "/out/libW.so"
        (Libs.mk ["/a/libA.a"] ["/s/libS.a"] ["-lz"]) =
      ["clang", "-shared", "-Wl,--whole-archive", "-o" ++ "/out/libW.so"] ++
        ["/a/libA.a"] ++ ["-Wl,--no-whole-archive"] ++ ["/s/libS.a"] ++ ["-lz"] ∧
    create_shared_lib_cmd false "clang" "/out/libW.so"
        (Libs.mk ["/a/libA.a"] ["/s/libS.a"] ["-lz"]) =
      ["clang", "-shared", "-Wl,-all_load", "-o" ++ "/out/libW.so"] ++
        ["/a/libA.a"] ++ ["-lc++"] ++ ["/s/libS.a"] ++ ["-lz"] :=
  ⟨⟨by decide, by decide, by decide⟩,
   create_shared_lib_cmd_bracket "clang" "/out/libW.so"
     (Libs.mk ["/a/libA.a"] ["/s/libS.a"] ["-lz"]) (by decide) (by decide) (by decide)⟩

/-- `get_tgt` (src lines 184-187): if the target is a directory, append the default
filename. (The trailing `.resolve()` is modelled as the identity, assuming an
absolute normalized target with no symlinks.) -/
def get_tgt (tgt : String) (isDir : Bool) (filename : String) : String :=
  if isDir then tgt ++ "/" ++ filename else tgt

/-- The name of the packaged static archive, `f"lib{EXPORTED_LIB}Real.a"`. -/
def staticLibFilename : String := "lib" ++ EXPORTED_LIB ++ "Real.a"

/-- The MRI script fed to `ar -M` by `create_static_lib` on Linux (src lines
193-196): `create` on the target file, one `addlib` per input archive in the order
`libs.archive + libs.static`, then `save` and `end`. -/
def mriScript (tgtFile : String) (libs : Libs) : String :=
  "create " ++ tgtFile ++ "\n"
  ++ String.intercalate "\n" ((libs.archive ++ libs.static).map (fun l => "addlib " ++ l))
  ++ "\nsave\nend"

/-- The `libtool` invocation built by `create_static_lib` off Linux (src lines
198-204): `libtool -static`, the `archive` then `static` inputs, `-o`, target. -/
def libtoolCommand (tgtFile : String) (libs : Libs) : List String :=
  ["libtool", "-static"] ++ libs.archive ++ libs.static ++ ["-o", tgtFile]

/-- The input archives a `libtool -static` invocation merges: everything between
the `-static` mode flag and the `-o` output flag. -/
def libtoolMergeInputs (argv : List String) : List String :=
  ((argv.dropWhile (fun s => s != "-static")).drop 1).takeWhile (fun s => s != "-o")

/-- C7: under both platform strategies the Archive Builder passes the input archives
in exactly the order `archive ++ static` and targets the single consolidated archive
file derived from the target path: the libtool invocation merges exactly
`archive ++ static` into `-o <target>`, and the MRI script creates the target file
and issues the `addlib` directives for `archive ++ static` in that order. -/
theorem create_static_lib_merge_order (tgt : String) (isDir : Bool) (libs : Libs)
    (ho : "-o" ∉ libs.archive ++ libs.static) :
    libtoolMergeInputs (libtoolCommand (get_tgt tgt isDir staticLibFilename) libs) =
      libs.archive ++ libs.static ∧
    (libtoolCommand (get_tgt tgt isDir staticLibFilename) libs).drop
        (2 + (libs.archive ++ libs.static).length) =
      ["-o", get_tgt tgt isDir staticLibFilename] ∧
    mriScript (get_tgt tgt isDir staticLibFilename) libs =
      "create " ++ get_tgt tgt isDir staticLibFilename ++ "\n"
      ++ String.intercalate "\n"
          ((libs.archive ++ libs.static).map (fun l => "addlib " ++ l))
      ++ "\nsave\nend" := by
  refine ⟨?_, ?_, rfl⟩
  · have hstop := takeWhile_append_stop (fun s => s != "-o")
      (libs.archive ++ libs.static) "-o"
      [get_tgt tgt isDir staticLibFilename]
      (by
        intro x hx
        simp only [bne_iff_ne, ne_eq]
        intro heq
        exact ho (heq ▸ hx))
      (by simp)
    simp only [libtoolMergeInputs, libtoolCommand]
    simp only [List.cons_append, List.nil_append, List.dropWhile_cons]
    norm_num
    simpa [List.append_assoc] using hstop
  · simp only [libtoolCommand]
    simp only [List.cons_append, List.nil_append, List.append_assoc]
    rw [show ("libtool" :: "-static" ::
          (libs.archive ++ (libs.static ++ ["-o", get_tgt tgt isDir staticLibFilename]))) =
        ("libtool" :: "-static" :: (libs.archive ++ libs.static)) ++
          ["-o", get_tgt tgt isDir staticLibFilename] from by simp]
    have hlen : ("libtool" :: "-static" :: (libs.archive ++ libs.static)).length =
        2 + (libs.archive ++ libs.static).length := by
      simp
      omega
    rw [← hlen, List.drop_left]

/-- Witness for C7 at a concrete classified set and a directory target. -/
theorem create_static_lib_merge_order_witness :
    ("-o" ∉ (Libs.mk ["/a/a1.a", "/a/a2.a"] ["/s/s1.a"] []).archive ++
        (Libs.mk ["/a/a1.a", "/a/a2.a"] ["/s/s1.a"] []).static) ∧
    libtoolMergeInputs
        (libtoolCommand (get_tgt "/out" true staticLibFilename)
          (Libs.mk ["/a/a1.a", "/a/a2.a"] ["/s/s1.a"] [])) =
      ["/a/a1.a", "/a/a2.a", "/s/s1.a"] ∧
    mriScript (get_tgt "/out" true staticLibFilename)
        (Libs.mk ["/a/a1.a", "/a/a2.a"] ["/s/s1.a"] []) =
      "create /out/libswiftAndLlvmSupportReal.a\naddlib /a/a1.a\naddlib /a/a2.a\n" ++
        "addlib /s/s1.a\nsave\nend" := by
  have h := create_static_lib_merge_order "/out" true
    (Libs.mk ["/a/a1.a", "/a/a2.a"] ["/s/s1.a"] []) (by decide)
  exact ⟨by decide, by simpa using h.1, by decide⟩

/-- Model of `subprocess.run(prog, ...)` as invoked by `run` (src line 118): the
child runs and finishes with some exit status; since `check=True` is not passed,
the call returns the completed process (here: its exit status) instead of raising,
whatever that status is. -/
def subprocess_run (exitCode : Nat) : Nat := exitCode

/-- Model of `run` (src lines 111-118): prints the command, calls
`subprocess.run` and discards the returned `CompletedProcess` without inspecting
its exit status, so the call never surfaces an error, even for a non-zero exit. -/
def runTool (exitCode : Nat) : Except String Unit :=
  let _ := subprocess_run exitCode
  Except.ok ()

/-- A sequence of external-tool invocations with the given exit codes, executed
strictly in order the way the pipeline runs them: a step executes only if no
earlier step surfaced an error, and an error stops the run. Returns the indices of
the steps that executed, starting at `i`. -/
def execFrom (i : Nat) : List Nat → List Nat
  | [] => []
  | e :: es =>
    match runTool e with
    | Except.ok _ => i :: execFrom (i + 1) es
    | Except.error _ => [i]

/-- The indices of the pipeline steps that execute when the external tools exit
with the given codes. -/
def executedSteps (exits : List Nat) : List Nat := execFrom 0 exits

/-- Sequencing of the tool invocations as the script's control flow sees it. -/
def runAll : List Nat → Except String Unit
  | [] => Except.ok ()
  | e :: es => (runTool e).bind (fun _ => runAll es)

/-- The interpreter's exit status: non-zero only if an uncaught exception escapes
`main`; `runTool` never raises, so this is the only error source in the model. -/
def scriptExit (exits : List Nat) : Nat :=
  match runAll exits with
  | Except.ok _ => 0
  | Except.error _ => 1

/-- C2 counterexample: with tool exit codes `[0, 1, 0]`, the second invocation
exits non-zero, yet `runTool` reports success, every later step still executes
(all three step indices appear), and the process exits with status `0`. -/
theorem runTool_ignores_nonzero_exit :
    runTool 1 = Except.ok () ∧
    executedSteps [0, 1, 0] = [0, 1, 2] ∧
    scriptExit [0, 1, 0] = 0 := by decide

/-- C2 amended: `run` invokes each external process without checking its exit
status, so a non-zero child exit is silently ignored: every pipeline step executes
regardless of the exit codes of earlier tools, and the run terminates with exit
status zero. -/
theorem run_pipeline_continues (exits : List Nat) :
    executedSteps exits = List.range exits.length ∧
    runAll exits = Except.ok () ∧
    scriptExit exits = 0 := by
  have hexec : ∀ (es : List Nat) (i : Nat), execFrom i es = List.range' i es.length := by
    intro es
    induction es with
    | nil => intro i; simp [execFrom]
    | cons e es ih => intro i; simp [execFrom, runTool, ih, List.range'_succ]
  refine ⟨?_, ?_, ?_⟩
  · rw [executedSteps, hexec, List.range_eq_range']
  · induction exits with
    | nil => rfl
    | cons e es ih => simp [runAll, runTool, Except.bind, ih]
  · induction exits with
    | nil => rfl
    | cons e es ih =>
      simp only [scriptExit] at ih ⊢
      simp [runAll, runTool, Except.bind]
      cases hr : runAll es with
      | ok _ => simp [hr] at ih ⊢
      | error _ => simp [hr] at ih

/-- Parsed options as `main` consumes them (`--output` already folded through
`get_tgt`; `--update-shared`/`--update-static` are caller-supplied directories). -/
structure Opts where
  llvm : String
  swift : String
  output : String
  update_shared : Option String
  update_static : Option String
deriving DecidableEq, Repr

/-- One observable pipeline action of `main` (src lines 294-319), in the order the
script performs them. -/
inductive Step where
  | rmtreeTmp
  | mkdirTmp
  | buildDeps (dir : String) (targets : List String)
  | installDeps
  | copySyntaxHeaders
  | configureDummy
  | classifyLibs
  | createStaticAt (dir : String)
  | createSharedAt (dir : String)
  | writeCmakeFragment
  | copyIncludesStep
  | createSdkStep
  | zipBundle (tgt : String)
  | tarBundle (tgt : String)
deriving DecidableEq, Repr

/-- The steps of the update branch of `main` (src lines 299-307): rebuild the
declared dependency targets per project, configure the dummy project, classify,
then regenerate only the requested libraries, shared first. -/
def updateSteps (opts : Opts) : List Step :=
  [Step.buildDeps opts.llvm ["LLVMSupport"], Step.buildDeps opts.swift ["swiftFrontendTool"],
   Step.configureDummy, Step.classifyLibs]
  ++ (match opts.update_shared with
      | some d => [Step.createSharedAt d]
      | none => [])
  ++ (match opts.update_static with
      | some d => [Step.createStaticAt d]
      | none => [])

/-- The steps of the full-packaging branch of `main` (src lines 308-319), with
`create_export_dir` (src lines 265-278) flattened into its builder, fragment,
header-export and SDK-export actions, followed by both compression steps. -/
def fullSteps (opts : Opts) : List Step :=
  [Step.installDeps, Step.copySyntaxHeaders, Step.configureDummy, Step.classifyLibs,
   Step.createStaticAt "/tmp/llvm-swift", Step.createSharedAt "/tmp/llvm-swift",
   Step.writeCmakeFragment, Step.copyIncludesStep, Step.createSdkStep,
   Step.zipBundle opts.output, Step.tarBundle opts.output]

/-- The pipeline branch selection of `main` (src line 299):
`if opts.update_shared or opts.update_static`. -/
def pipelineSteps (opts : Opts) : List Step :=
  if opts.update_shared.isSome || opts.update_static.isSome then updateSteps opts
  else fullSteps opts

/-- The whole of `main` (src lines 294-319) as a step trace: first the working
temporary root `/tmp/llvm-swift` is removed if it exists and recreated, then the
selected pipeline branch runs. -/
def mainSteps (tmpExists : Bool) (opts : Opts) : List Step :=
  (if tmpExists then [Step.rmtreeTmp] else []) ++ [Step.mkdirTmp] ++ pipelineSteps opts

/-- `shutil.rmtree` on a directory state (`none` = absent, `some fs` = present
with contents `fs`): removes the tree. -/
def rmtreeFs (_st : Option (List String)) : Option (List String) := none

/-- `os.mkdir` on a directory state: creates an empty directory, raising
`FileExistsError` if the path already exists. -/
def mkdirFs (st : Option (List String)) : Except String (Option (List String)) :=
  match st with
  | none => Except.ok (some [])
  | some _ => Except.error "FileExistsError"

/-- The temporary-root preparation of `main` (src lines 295-298): remove the
deterministic working root if it exists, then create it. -/
def prepareTmp (st : Option (List String)) : Except String (Option (List String)) :=
  mkdirFs (if st.isSome then rmtreeFs st else st)

/-- A step that belongs to the full-packaging branch only: staging install, header
copying, cmake-fragment write, header export, SDK export, or bundle compression. -/
def exportOrFinalizeStep : Step → Bool
  | Step.installDeps => true
  | Step.copySyntaxHeaders => true
  | Step.writeCmakeFragment => true
  | Step.copyIncludesStep => true
  | Step.createSdkStep => true
  | Step.zipBundle _ => true
  | Step.tarBundle _ => true
  | _ => false

/-- C8: when an update mode is requested, `main` runs only the dependency rebuild,
the prober (configure), the classifier, and the requested builder(s) at their
caller-supplied locations; the trace contains no staging install, no header export,
no SDK export, no cmake-fragment write, and no compression step, and a builder step
appears exactly for the requested mode and directory. -/
theorem main_update_mode (tmpExists : Bool) (opts : Opts)
    (h : opts.update_shared.isSome ∨ opts.update_static.isSome) :
    mainSteps tmpExists opts =
      (if tmpExists then [Step.rmtreeTmp] else []) ++ [Step.mkdirTmp] ++ updateSteps opts ∧
    (∀ s ∈ mainSteps tmpExists opts, exportOrFinalizeStep s = false) ∧
    (∀ d, Step.createSharedAt d ∈ mainSteps tmpExists opts ↔ opts.update_shared = some d) ∧
    (∀ d, Step.createStaticAt d ∈ mainSteps tmpExists opts ↔ opts.update_static = some d) := by
  obtain ⟨lv, sv, ov, us, ut⟩ := opts
  simp only at h
  have hsel : pipelineSteps (Opts.mk lv sv ov us ut) = updateSteps (Opts.mk lv sv ov us ut) := by
    rcases h with h | h <;> simp [pipelineSteps, h]
  refine ⟨by rw [mainSteps, hsel], ?_, ?_, ?_⟩
  · have hall : (mainSteps tmpExists (Opts.mk lv sv ov us ut)).all
        (fun s => !exportOrFinalizeStep s) = true := by
      rw [mainSteps, hsel]
      rcases us with _ | d1 <;> rcases ut with _ | d2 <;>
        rcases tmpExists with _ | _ <;> rfl
    intro s hs
    simpa using List.all_eq_true.mp hall s hs
  · intro d
    rw [mainSteps, hsel]
    rcases us with _ | d1 <;> rcases ut with _ | d2 <;>
      rcases tmpExists with _ | _ <;> simp [updateSteps, eq_comm]
  · intro d
    rw [mainSteps, hsel]
    rcases us with _ | d1 <;> rcases ut with _ | d2 <;>
      rcases tmpExists with _ | _ <;> simp [updateSteps, eq_comm]

/-- Witness for C8: update-static only, against an existing working root. -/
theorem main_update_mode_witness :
    ((Opts.mk "/b/llvm" "/b/swift" "/o" none (some "/bundle")).update_shared.isSome ∨
      (Opts.mk "/b/llvm" "/b/swift" "/o" none (some "/bundle")).update_static.isSome) ∧
    mainSteps true (Opts.mk "/b/llvm" "/b/swift" "/o" none (some "/bundle")) =
      [Step.rmtreeTmp, Step.mkdirTmp,
       Step.buildDeps "/b/llvm" ["LLVMSupport"], Step.buildDeps "/b/swift" ["swiftFrontendTool"],
       Step.configureDummy, Step.classifyLibs, Step.createStaticAt "/bundle"] :=
  ⟨Or.inr (by decide),
   by
    have h := main_update_mode true (Opts.mk "/b/llvm" "/b/swift" "/o" none (some "/bundle"))
      (Or.inr (by decide))
    rw [h.1]
    decide⟩

/-- C9: at the start of every run and before any pipeline step, the deterministic
working root is destroyed if present and recreated empty — for every prior state of
the root, preparation succeeds and yields an empty directory — and no later
pipeline step removes or recreates it. -/
theorem main_wipes_tmp_first (tmpExists : Bool) (opts : Opts)
    (st : Option (List String)) :
    prepareTmp st = Except.ok (some []) ∧
    mainSteps tmpExists opts =
      (if tmpExists then [Step.rmtreeTmp, Step.mkdirTmp] else [Step.mkdirTmp]) ++
        pipelineSteps opts ∧
    Step.rmtreeTmp ∉ pipelineSteps opts ∧
    Step.mkdirTmp ∉ pipelineSteps opts := by
  obtain ⟨lv, sv, ov, us, ut⟩ := opts
  refine ⟨?_, ?_, ?_, ?_⟩
  · rcases st with _ | fs <;> simp [prepareTmp, rmtreeFs, mkdirFs]
  · rcases tmpExists with _ | _ <;> simp [mainSteps]
  · rw [pipelineSteps]
    rcases us with _ | d1 <;> rcases ut with _ | d2 <;> simp [updateSteps, fullSteps]
  · rw [pipelineSteps]
    rcases us with _ | d1 <;> rcases ut with _ | d2 <;> simp [updateSteps, fullSteps]
